import Mathlib

/-!
Shallow embedding of the core logic of `src/frontend/src/App.tsx`:
the sample data record, placeholder substitution, condition evaluation,
data-item preview rendering, the document model operations, the
line-item geometry operations, and the paper-size change sequencing.

Numbers are modelled as rationals (JS numbers on the relevant code paths
are finite decimals) and JS strings as Lean `String`.
-/

/-- The value of a field of the sample record: a JS string or number
(`DbRecord` has only string and number fields). -/
inductive DbValue
  | str (s : String)
  | num (n : Int)
deriving DecidableEq

/-- JS `String(v)` / template-literal coercion for a record value. -/
def textOf : DbValue → String
  | .str s => s
  | .num n => toString n

/-- The fixed sample record `DB_SAMPLE` of `App.tsx`, as a lookup from
field name to value (`none` for unknown field names, i.e. JS `undefined`). -/
def DB_SAMPLE (key : String) : Option DbValue :=
  if key = "名前" then some (.str "山田 太郎")
  else if key = "年齢" then some (.num 32)
  else if key = "性別" then some (.str "男性")
  else if key = "住所" then some (.str "東京都千代田区丸の内1-1-1")
  else none

/-- `dbColumns = Object.keys(DB_SAMPLE)`. -/
def dbColumns : List String := ["名前", "年齢", "性別", "住所"]

/-- `isDbColumn` from `App.tsx`: membership test in `dbColumns`. -/
def isDbColumn (value : String) : Bool := dbColumns.contains value

/-- `String(DB_SAMPLE[key] ?? '')`: the record value coerced to text,
empty string when the field is absent. -/
def dbText (key : String) : String :=
  match DB_SAMPLE key with
  | some v => textOf v
  | none => ""

/-- Whitespace characters stripped by JS `String.prototype.trim`
(the ASCII part of the WhiteSpace/LineTerminator sets, which covers every
string occurring in this application). -/
def jsWhitespace (c : Char) : Bool :=
  c = ' ' || c = '\t' || c = '\n' || c = '\r' || c = '\x0b' || c = '\x0c'

/-- `rawKey.trim()` on the character list of a string. -/
def trimChars (l : List Char) : List Char :=
  ((l.dropWhile jsWhitespace).reverse.dropWhile jsWhitespace).reverse

/-- The replacement callback of `injectDbPlaceholders`: given the inner text
of a `{...}` token, trim it, and substitute the record value when the trimmed
key is a known column; otherwise restore the token verbatim. -/
def replaceToken (inner : List Char) : List Char :=
  let key := String.mk (trimChars inner)
  if isDbColumn key then (dbText key).data
  else '{' :: inner ++ ['}']

/-- Scanner for `text.replace(/\x7b([^{}]+)\x7d/g, ...)`. The first argument
is `none` in normal mode and `some buf` after an unmatched `{`, where `buf`
holds the (reversed) inner characters read so far. A token needs at least one
inner character and no nested brace, exactly as the regex requires. -/
def injectAux : Option (List Char) → List Char → List Char
  | none, [] => []
  | none, c :: cs =>
    if c = '{' then injectAux (some []) cs
    else c :: injectAux none cs
  | some buf, [] => '{' :: buf.reverse
  | some buf, c :: cs =>
    if c = '}' then
      if buf = [] then '{' :: '}' :: injectAux none cs
      else replaceToken buf.reverse ++ injectAux none cs
    else if c = '{' then '{' :: buf.reverse ++ injectAux (some []) cs
    else injectAux (some (c :: buf)) cs

/-- `injectDbPlaceholders` from `App.tsx`. -/
def injectDbPlaceholders (text : String) : String :=
  String.mk (injectAux none text.data)

/-- JS `hay.includes(needle)` on character lists. -/
def includesChars (needle : List Char) : List Char → Bool
  | [] => needle.isPrefixOf ([] : List Char)
  | c :: rest => needle.isPrefixOf (c :: rest) || includesChars needle rest

/-- The three condition operators of `ConditionOperator`. -/
inductive ConditionOperator
  | equals
  | notEquals
  | contains
deriving DecidableEq

/-- `ConditionSetting` from `App.tsx`; `column = ""` means unset. -/
structure ConditionSetting where
  enabled : Bool
  column : String
  operator : ConditionOperator
  value : String
  trueText : String
  falseText : String
deriving DecidableEq

/-- `evaluateCondition` from `App.tsx` (the record is the fixed `DB_SAMPLE`,
exactly as in the source, which closes over it). Returns `none` when the
condition is disabled or its column is unset. -/
def evaluateCondition (condition : ConditionSetting) : Option String :=
  if condition.enabled = false ∨ condition.column = "" then none
  else
    let sourceValue := dbText condition.column
    let matched : Bool :=
      match condition.operator with
      | .equals => sourceValue == condition.value
      | .notEquals => sourceValue != condition.value
      | .contains => includesChars condition.value.data sourceValue.data
    some (if matched then condition.trueText else condition.falseText)

/-- Text alignment of text/data items. -/
inductive Align
  | left
  | center
  | right
deriving DecidableEq

/-- `TextItem` from `App.tsx`. -/
structure TextItem where
  id : String
  x : Rat
  y : Rat
  width : Rat
  height : Rat
  text : String
  fontSize : Rat
  bold : Bool
  align : Align
deriving DecidableEq

/-- `DataItem` from `App.tsx`; `column = ""` means unset. The source fields
`prefix`/`suffix` are named `prefixText`/`suffixText` here because `prefix`
is reserved in Lean. -/
structure DataItem where
  id : String
  x : Rat
  y : Rat
  width : Rat
  height : Rat
  column : String
  fontSize : Rat
  bold : Bool
  align : Align
  prefixText : String
  suffixText : String
  emptyFallback : String
  condition : ConditionSetting
deriving DecidableEq

/-- `RectangleItem` from `App.tsx`. -/
structure RectangleItem where
  id : String
  x : Rat
  y : Rat
  width : Rat
  height : Rat
  background : String
  borderColor : String
  borderWidth : Rat
  borderRadius : Rat
deriving DecidableEq

/-- LineOrientation of a line item. -/
inductive LineOrientation
  | horizontal
  | vertical
deriving DecidableEq

/-- `LineItem` from `App.tsx`. -/
structure LineItem where
  id : String
  x : Rat
  y : Rat
  width : Rat
  height : Rat
  color : String
  thickness : Rat
  orientation : LineOrientation
deriving DecidableEq

/-- The tagged union `CanvasItem`. -/
inductive CanvasItem
  | text (item : TextItem)
  | data (item : DataItem)
  | rectangle (item : RectangleItem)
  | line (item : LineItem)
deriving DecidableEq

/-- The common `id` field of a `CanvasItem`. -/
def CanvasItem.id : CanvasItem → String
  | .text item => item.id
  | .data item => item.id
  | .rectangle item => item.id
  | .line item => item.id

/-- The JS test `value === null || value === undefined || value === ''`
applied to the optionally-resolved record value of a data item. -/
def isEmptyValue : Option DbValue → Bool
  | none => true
  | some (.str s) => s = ""
  | some (.num _) => false

/-- The prefix/suffix/fallback path of `renderPreviewText` (its two final
`return` statements). -/
def renderRawValue (item : DataItem) (value : Option DbValue) : String :=
  if isEmptyValue value then item.emptyFallback
  else item.prefixText ++ (value.elim "" textOf) ++ item.suffixText

/-- `renderPreviewText` from `App.tsx` (the spec's `renderDataItem`):
a present non-empty condition result wins; otherwise prefix/value/suffix
with `emptyFallback` for an unset column or empty/absent value. -/
def renderPreviewText (item : DataItem) : String :=
  let value : Option DbValue := if item.column = "" then none else DB_SAMPLE item.column
  match evaluateCondition item.condition with
  | some s => if s = "" then renderRawValue item value else s
  | none => renderRawValue item value

/-- The document model: the ordered item list plus the selection key. -/
structure DocumentState where
  items : List CanvasItem
  selectedId : Option String
deriving DecidableEq

/-- `handleItemUpdate(id, payload)` from `App.tsx`. The object merge
`\x7b...item, ...payload\x7d` is modelled by the update function it induces
on the matching item. -/
def handleItemUpdate (doc : DocumentState) (id : String)
    (merge : CanvasItem → CanvasItem) : DocumentState :=
  { doc with
    items := doc.items.map (fun item => if item.id == id then merge item else item) }

/-- `handleDelete(id)` from `App.tsx`: filter the item out and clear the
selection when it pointed at the deleted id. -/
def handleDelete (doc : DocumentState) (id : String) : DocumentState :=
  { items := doc.items.filter (fun item => item.id != id),
    selectedId := if doc.selectedId = some id then none else doc.selectedId }

/-- `setSelectedId` as used on item mouse-down: replace the selection key. -/
def select (doc : DocumentState) (id : Option String) : DocumentState :=
  { doc with selectedId := id }

/-- `selectedItem = items.find((item) => item.id === selectedId) || null`. -/
def selectedItem (doc : DocumentState) : Option CanvasItem :=
  match doc.selectedId with
  | none => none
  | some sid => doc.items.find? (fun item => item.id == sid)

/-- The line item created by `handleAddItem('line')` (base geometry with the
line overrides: `height: 2, thickness: 2, orientation: 'horizontal'`). -/
def defaultLineItem (id : String) : LineItem :=
  { id := id, x := 40, y := 40, width := 160, height := 2,
    color := "#333333", thickness := 2, orientation := .horizontal }

/-- `applyLineResize` from `App.tsx`, as the transformation it performs on
the target item (the source routes it through `handleItemUpdate`); the
`position` argument is split into `px`/`py`. -/
def applyLineResize (target : LineItem) (nextWidth nextHeight px py : Rat) : LineItem :=
  let rawThickness := if target.orientation = .horizontal then nextHeight else nextWidth
  let thickness := max rawThickness 1
  { target with
    width := if target.orientation = .horizontal then nextWidth else thickness,
    height := if target.orientation = .horizontal then thickness else nextHeight,
    x := px,
    y := py,
    thickness := thickness }

/-- The 太さ (thickness) input handler of `App.tsx`, as the transformation it
performs on the selected line item: store the entered thickness (unclamped)
and mirror it onto the thickness-axis dimension. -/
def setLineThickness (item : LineItem) (t : Rat) : LineItem :=
  { item with
    thickness := t,
    height := if item.orientation = .horizontal then t else item.height,
    width := if item.orientation = .vertical then t else item.width }

/-- The 方向 (orientation) select handler of `App.tsx`, as the transformation
it performs on the selected line item. The source block contains duplicated
remnants of an older payload after the `thickness:` line (a leftover of a bad
merge, syntactically dead); this follows the first complete payload
(`orientation`/`width`/`height`/`thickness`), which is the one the spec
describes. -/
def setLineOrientation (item : LineItem) (o : LineOrientation) : LineItem :=
  let currentLength := if item.orientation = .horizontal then item.width else item.height
  let currentThickness := if item.orientation = .horizontal then item.height else item.width
  { item with
    orientation := o,
    width := if o = .horizontal then currentLength else currentThickness,
    height := if o = .vertical then currentLength else currentThickness,
    thickness := max currentThickness 1 }

/-- One operation of a `setThickness`/`setOrientation` sequence. -/
inductive LineOp
  | setT (t : Rat)
  | setO (o : LineOrientation)
deriving DecidableEq

/-- Apply one line operation. -/
def applyLineOp (item : LineItem) : LineOp → LineItem
  | .setT t => setLineThickness item t
  | .setO o => setLineOrientation item o

/-- The states reached after each operation of a sequence, in order. -/
def applyLineOpsTrace (item : LineItem) : List LineOp → List LineItem
  | [] => []
  | op :: ops => applyLineOp item op :: applyLineOpsTrace (applyLineOp item op) ops

/-- The line invariant of the spec: the dimension on the thickness axis
equals `thickness`. -/
def lineInvariant (item : LineItem) : Prop :=
  (item.orientation = .horizontal → item.height = item.thickness) ∧
  (item.orientation = .vertical → item.width = item.thickness)

instance (item : LineItem) : Decidable (lineInvariant item) := by
  unfold lineInvariant
  infer_instance

/-- The three paper-size keys. -/
inductive PaperSizeKey
  | A4
  | A4Landscape
  | Letter
deriving DecidableEq

/-- One entry of the paper catalog (label and physical size in mm). -/
structure PaperInfo where
  label : String
  width : Rat
  height : Rat
deriving DecidableEq

/-- `PAPER_SIZES` from `App.tsx`. -/
def PAPER_SIZES : PaperSizeKey → PaperInfo
  | .A4 => { label := "A4（縦）", width := 210, height := 297 }
  | .A4Landscape => { label := "A4（横）", width := 297, height := 210 }
  | .Letter => { label := "レター", width := 215.9, height := 279.4 }

/-- `mmToPx` from `App.tsx` (96 dpi). -/
def mmToPx (mm : Rat) : Rat := mm / 25.4 * 96

/-- The application state cells touched by the paper-size change handler. -/
structure AppState where
  paperSize : Option PaperSizeKey
  items : List CanvasItem
  selectedId : Option String
  panX : Rat
  panY : Rat
  isPanning : Bool
deriving DecidableEq

/-- One committed state update of the paper-size change handler. -/
inductive AppUpdate
  | setPaper (k : PaperSizeKey)
  | setItemsEmpty
  | clearSelection
  | resetPan
  | stopPanning
deriving DecidableEq

/-- Commit one state update. -/
def applyUpdate (s : AppState) : AppUpdate → AppState
  | .setPaper k => { s with paperSize := some k }
  | .setItemsEmpty => { s with items := [] }
  | .clearSelection => { s with selectedId := none }
  | .resetPan => { s with panX := 0, panY := 0 }
  | .stopPanning => { s with isPanning := false }

/-- Commit a list of state updates in order. -/
def runUpdates (s : AppState) (us : List AppUpdate) : AppState :=
  us.foldl applyUpdate s

/-- The synchronous part of the paper-size select onChange handler:
`setPaperSize(next)`. -/
def paperChangeSync (next : PaperSizeKey) : List AppUpdate :=
  [.setPaper next]

/-- The deferred reset callback scheduled by `setTimeout(..., 0)`: it runs
as a separate task, strictly after the synchronous updates have committed. -/
def paperChangeDeferred : List AppUpdate :=
  [.setItemsEmpty, .clearSelection, .resetPan, .stopPanning]

/-- The full committed update sequence of a paper-size change: the
synchronous phase followed (never interleaved) by the deferred reset. -/
def paperChangeCommitted (next : PaperSizeKey) : List AppUpdate :=
  paperChangeSync next ++ paperChangeDeferred

/-- A reachable line item with a degenerate thickness-axis dimension (set the
高さ input of a selected horizontal default line to 0 while its `thickness`
stays 5). -/
def badLine : LineItem :=
  { id := "line-2", x := 40, y := 40, width := 160, height := 0,
    color := "#333333", thickness := 5, orientation := .horizontal }

/-- A condition comparing the 性別 field with 男性 (the spec's example). -/
def sampleCondition : ConditionSetting :=
  { enabled := true, column := "性別", operator := .equals, value := "男性",
    trueText := "Mr.", falseText := "Ms." }

/-- A data item with no bound column, no enabled condition, and
`emptyFallback = "N/A"` (the spec's example state). -/
def sampleDataItem : DataItem :=
  { id := "data-1", x := 40, y := 40, width := 160, height := 60, column := "",
    fontSize := 16, bold := false, align := .left, prefixText := "", suffixText := "",
    emptyFallback := "N/A",
    condition := { enabled := false, column := "名前", operator := .equals,
                   value := "", trueText := "", falseText := "" } }

/-- A two-item document with the first item selected. -/
def sampleDoc : DocumentState :=
  { items := [CanvasItem.line (defaultLineItem "line-a"),
              CanvasItem.line (defaultLineItem "line-b")],
    selectedId := some "line-a" }

/-- A concrete merge payload (`\x7b ...item, x: 0 \x7d` on a line item). -/
def sampleMerge : CanvasItem → CanvasItem
  | .line l => .line { l with x := 0 }
  | item => item

/-- The input restriction under which the thickness editor keeps the line
invariant: a `setThickness` call carries a value ≥ 1. -/
def lineOpInputOk : LineOp → Prop
  | .setT t => 1 ≤ t
  | .setO _ => True

instance (op : LineOp) : Decidable (lineOpInputOk op) := by
  cases op <;> simp only [lineOpInputOk] <;> infer_instance

/- ### Helper lemmas on the placeholder scanner -/

/-- Characters before the first `\x7b` pass through the scanner unchanged. -/
theorem injectAux_clean (pre l : List Char) (h : ∀ c ∈ pre, c ≠ '{') :
    injectAux none (pre ++ l) = pre ++ injectAux none l := by
  induction pre with
  | nil => simp
  | cons c cs ih =>
    have hc : c ≠ '{' := h c (by simp)
    simp only [List.cons_append, injectAux, hc, if_false, List.append_eq]
    rw [ih (fun d hd => h d (by simp [hd]))]

/-- Collecting mode consumes brace-free inner text up to the closing `\x7d`
and hands the full inner text to the replacement callback. -/
theorem injectAux_collect (inner : List Char) (buf rest : List Char)
    (h : ∀ c ∈ inner, c ≠ '{' ∧ c ≠ '}') :
    injectAux (some buf) (inner ++ '}' :: rest) =
      if buf.reverse ++ inner = [] then '{' :: '}' :: injectAux none rest
      else replaceToken (buf.reverse ++ inner) ++ injectAux none rest := by
  induction inner generalizing buf with
  | nil =>
    by_cases hb : buf = [] <;>
      simp [injectAux, hb, List.reverse_eq_nil_iff]
  | cons c cs ih =>
    have hc := h c (by simp)
    simp only [List.cons_append, injectAux, hc.1, hc.2, if_false, List.append_eq]
    rw [ih (c :: buf) (fun d hd => h d (by simp [hd]))]
    simp [List.append_assoc]

/-- A complete token `\x7b inner \x7d` with nonempty brace-free inner text is
replaced through the callback; the scan continues after it. -/
theorem injectAux_token (inner rest : List Char) (hne : inner ≠ [])
    (h : ∀ c ∈ inner, c ≠ '{' ∧ c ≠ '}') :
    injectAux none ('{' :: (inner ++ '}' :: rest)) =
      replaceToken inner ++ injectAux none rest := by
  simp only [injectAux, if_pos rfl]
  rw [injectAux_collect inner [] rest h]
  simp [hne]

/-- `isPrefixOf` agrees with the prefix relation on character lists. -/
theorem includesChars_iff (needle hay : List Char) :
    includesChars needle hay = true ↔ needle <:+: hay := by
  induction hay with
  | nil =>
    simp [includesChars, List.isPrefixOf_iff_prefix, List.prefix_nil, List.infix_nil]
  | cons c rest ih =>
    simp [includesChars, Bool.or_eq_true, List.isPrefixOf_iff_prefix, ih,
      List.infix_cons_iff]

/-- C10: `resolvePlaceholderText` trims the inner name of a token before the
field lookup: a single token substitutes the record value of its trimmed name
when that is a known column, and is otherwise restored verbatim with its
original untrimmed inner text and braces. -/
theorem injectDbPlaceholders_trim_lookup (inner : String)
    (hne : inner.data ≠ [])
    (h : ∀ c ∈ inner.data, c ≠ '{' ∧ c ≠ '}') :
    injectDbPlaceholders ("\x7b" ++ inner ++ "\x7d") =
      (if isDbColumn (String.mk (trimChars inner.data))
       then dbText (String.mk (trimChars inner.data))
       else "\x7b" ++ inner ++ "\x7d") := by
  apply String.ext
  have hdata : ("\x7b" ++ inner ++ "\x7d").data = '{' :: (inner.data ++ '}' :: []) := by
    simp [String.data_append]
  rw [injectDbPlaceholders, hdata, injectAux_token inner.data [] hne h]
  simp only [injectAux, List.append_nil, replaceToken]
  by_cases hcol : isDbColumn (String.mk (trimChars inner.data)) <;>
    simp [hcol, String.data_append]

/-- C5 (amended): in a brace-free context, a token substitutes the record
value of its trimmed inner name when that is a known column (coerced to
text, empty for an absent value) and stays verbatim otherwise; the scan
continues after the token. -/
theorem injectDbPlaceholders_token_subst (pre inner post : String)
    (hpre : ∀ c ∈ pre.data, c ≠ '{')
    (hne : inner.data ≠ [])
    (h : ∀ c ∈ inner.data, c ≠ '{' ∧ c ≠ '}') :
    injectDbPlaceholders (pre ++ "\x7b" ++ inner ++ "\x7d" ++ post) =
      pre ++ (if isDbColumn (String.mk (trimChars inner.data))
              then dbText (String.mk (trimChars inner.data))
              else "\x7b" ++ inner ++ "\x7d") ++ injectDbPlaceholders post := by
  apply String.ext
  have hdata : (pre ++ "\x7b" ++ inner ++ "\x7d" ++ post).data =
      pre.data ++ '{' :: (inner.data ++ '}' :: post.data) := by
    simp [String.data_append]
  rw [injectDbPlaceholders, hdata, injectAux_clean pre.data _ hpre,
    injectAux_token inner.data post.data hne h]
  simp only [replaceToken]
  by_cases hcol : isDbColumn (String.mk (trimChars inner.data)) <;>
    simp [hcol, String.data_append, injectDbPlaceholders]

/-- C5 counterexample: the token `\x7b 名前 \x7d` has an inner name that is
not itself a known field (only its trimmed form is), yet it is substituted,
not left verbatim. -/
theorem injectDbPlaceholders_untrimmed_claim_false :
    isDbColumn " 名前 " = false ∧
    injectDbPlaceholders "{ 名前 }" ≠ "{ 名前 }" ∧
    injectDbPlaceholders "{ 名前 }" = "山田 太郎" := by
  refine ⟨by decide, ?_, by decide⟩
  decide

/-- C5 witness: substitution of `\x7b名前\x7d` inside `Hello ...`. -/
theorem injectDbPlaceholders_token_subst_witness :
    ((∀ c ∈ ("Hello " : String).data, c ≠ '{') ∧
     ("名前" : String).data ≠ [] ∧
     (∀ c ∈ ("名前" : String).data, c ≠ '{' ∧ c ≠ '}')) ∧
    injectDbPlaceholders ("Hello " ++ "\x7b" ++ "名前" ++ "\x7d" ++ "") =
      "Hello " ++ (if isDbColumn (String.mk (trimChars ("名前" : String).data))
                   then dbText (String.mk (trimChars ("名前" : String).data))
                   else "\x7b" ++ "名前" ++ "\x7d") ++ injectDbPlaceholders "" :=
  ⟨⟨by decide, by decide, by decide⟩,
   injectDbPlaceholders_token_subst "Hello " "名前" "" (by decide) (by decide) (by decide)⟩

/-- C10 witness: a token with surrounding whitespace in its inner name. -/
theorem injectDbPlaceholders_trim_lookup_witness :
    ((" 名前 " : String).data ≠ [] ∧
     (∀ c ∈ (" 名前 " : String).data, c ≠ '{' ∧ c ≠ '}')) ∧
    injectDbPlaceholders ("\x7b" ++ " 名前 " ++ "\x7d") =
      (if isDbColumn (String.mk (trimChars (" 名前 " : String).data))
       then dbText (String.mk (trimChars (" 名前 " : String).data))
       else "\x7b" ++ " 名前 " ++ "\x7d") :=
  ⟨⟨by decide, by decide⟩,
   injectDbPlaceholders_trim_lookup " 名前 " (by decide) (by decide)⟩

/-- The thickness-axis dimension of a line item agreeing with `thickness`
follows from the invariant. -/
theorem currentThickness_eq (item : LineItem) (hInv : lineInvariant item) :
    (if item.orientation = .horizontal then item.height else item.width) =
      item.thickness := by
  cases horient : item.orientation
  · simpa using hInv.1 horient
  · simpa using hInv.2 horient

/-- One thickness or orientation edit preserves the invariant together with
`thickness ≥ 1`, provided a thickness edit carries a value ≥ 1. -/
theorem applyLineOp_good (item : LineItem) (op : LineOp)
    (hInv : lineInvariant item) (hTh : 1 ≤ item.thickness)
    (hOp : lineOpInputOk op) :
    lineInvariant (applyLineOp item op) ∧ 1 ≤ (applyLineOp item op).thickness := by
  cases op with
  | setT t =>
    have ht : 1 ≤ t := hOp
    cases horient : item.orientation <;>
      simp [applyLineOp, setLineThickness, lineInvariant, horient, ht]
  | setO o =>
    have hcur := currentThickness_eq item hInv
    have hmax : max (if item.orientation = .horizontal then item.height else item.width) 1 =
        item.thickness := by
      rw [hcur]
      exact max_eq_left hTh
    cases o <;>
      simp [applyLineOp, setLineOrientation, lineInvariant, hcur, hmax, hTh]

/-- C1 (amended): starting from a line item satisfying the invariant with
`thickness ≥ 1`, any sequence of `setThickness`/`setOrientation` edits whose
`setThickness` inputs are all ≥ 1 keeps the invariant
(`horizontal ⇒ height = thickness`, `vertical ⇒ width = thickness`) and
`thickness ≥ 1` after every operation. -/
theorem lineOps_preserve_invariant (item : LineItem) (ops : List LineOp)
    (hInv : lineInvariant item) (hTh : 1 ≤ item.thickness)
    (hOps : ∀ op ∈ ops, lineOpInputOk op) :
    ∀ st ∈ applyLineOpsTrace item ops, lineInvariant st ∧ 1 ≤ st.thickness := by
  induction ops generalizing item with
  | nil => simp [applyLineOpsTrace]
  | cons op rest ih =>
    intro st hst
    have hgood := applyLineOp_good item op hInv hTh (hOps op (by simp))
    rw [applyLineOpsTrace] at hst
    rcases List.mem_cons.mp hst with hst | hst
    · exact hst ▸ hgood
    · exact ih (applyLineOp item op) hgood.1 hgood.2
        (fun o ho => hOps o (by simp [ho])) st hst

/-- C1 counterexample: entering thickness 0 in the 太さ input stores it
unclamped, so after `setThickness 0` on a freshly created line the claimed
`thickness ≥ 1` fails (and a following orientation switch then breaks the
invariant itself). -/
theorem lineOps_claim_false :
    (¬ ∀ st ∈ applyLineOpsTrace (defaultLineItem "line-1") [LineOp.setT 0],
        lineInvariant st ∧ 1 ≤ st.thickness) ∧
    ¬ lineInvariant
        (setLineOrientation (setLineThickness (defaultLineItem "line-1") 0) .vertical) := by
  constructor <;> decide

/-- C1 witness: a concrete edit sequence with all thickness inputs ≥ 1. -/
theorem lineOps_preserve_invariant_witness :
    (lineInvariant (defaultLineItem "line-1") ∧
     1 ≤ (defaultLineItem "line-1").thickness ∧
     (∀ op ∈ [LineOp.setT 3, LineOp.setO .vertical, LineOp.setT 2,
              LineOp.setO .horizontal], lineOpInputOk op)) ∧
    ∀ st ∈ applyLineOpsTrace (defaultLineItem "line-1")
        [LineOp.setT 3, LineOp.setO .vertical, LineOp.setT 2, LineOp.setO .horizontal],
      lineInvariant st ∧ 1 ≤ st.thickness :=
  ⟨⟨by decide, by decide, by decide⟩,
   lineOps_preserve_invariant (defaultLineItem "line-1") _ (by decide) (by decide) (by decide)⟩

/-- C3: `applyLineResize` clamps the dimension perpendicular to the
orientation to ≥ 1, stores it as both the thickness and the thickness-axis
dimension, and passes the length-axis dimension and the position through
unchanged. -/
theorem applyLineResize_spec (target : LineItem) (nextWidth nextHeight px py : Rat) :
    (applyLineResize target nextWidth nextHeight px py).thickness =
      max (if target.orientation = .horizontal then nextHeight else nextWidth) 1 ∧
    (target.orientation = .horizontal →
      (applyLineResize target nextWidth nextHeight px py).height =
        (applyLineResize target nextWidth nextHeight px py).thickness ∧
      (applyLineResize target nextWidth nextHeight px py).width = nextWidth) ∧
    (target.orientation = .vertical →
      (applyLineResize target nextWidth nextHeight px py).width =
        (applyLineResize target nextWidth nextHeight px py).thickness ∧
      (applyLineResize target nextWidth nextHeight px py).height = nextHeight) ∧
    (applyLineResize target nextWidth nextHeight px py).x = px ∧
    (applyLineResize target nextWidth nextHeight px py).y = py ∧
    (applyLineResize target nextWidth nextHeight px py).orientation =
      target.orientation := by
  cases horient : target.orientation <;> simp [applyLineResize, horient]

/-- C3 witness: resizing a horizontal default line to height 0 stores
`height = thickness = max 0 1 = 1` and passes width and position through. -/
theorem applyLineResize_spec_witness :
    (defaultLineItem "line-1").orientation = .horizontal ∧
    ((applyLineResize (defaultLineItem "line-1") 160 0 40 40).height =
       (applyLineResize (defaultLineItem "line-1") 160 0 40 40).thickness ∧
     (applyLineResize (defaultLineItem "line-1") 160 0 40 40).width = 160) ∧
    (applyLineResize (defaultLineItem "line-1") 160 0 40 40).thickness = 1 ∧
    (applyLineResize (defaultLineItem "line-1") 160 0 40 40).height = 1 :=
  ⟨rfl,
   (applyLineResize_spec (defaultLineItem "line-1") 160 0 40 40).2.1 rfl,
   by decide, by decide⟩

/-- C4 (amended): for a line item satisfying the invariant with
`thickness ≥ 1`, an orientation switch carries the length along the old
orientation onto the new length axis, carries the thickness over exactly
(the ≥ 1 clamp is a no-op on such items), and forces the non-active axis
dimension equal to the thickness. -/
theorem setLineOrientation_spec (item : LineItem) (o : LineOrientation)
    (hInv : lineInvariant item) (hTh : 1 ≤ item.thickness) :
    (setLineOrientation item o).orientation = o ∧
    (o = .horizontal → (setLineOrientation item o).width =
      (if item.orientation = .horizontal then item.width else item.height)) ∧
    (o = .vertical → (setLineOrientation item o).height =
      (if item.orientation = .horizontal then item.width else item.height)) ∧
    (setLineOrientation item o).thickness = item.thickness ∧
    (o = .horizontal → (setLineOrientation item o).height =
      (setLineOrientation item o).thickness) ∧
    (o = .vertical → (setLineOrientation item o).width =
      (setLineOrientation item o).thickness) := by
  have hcur := currentThickness_eq item hInv
  have hmax : max (if item.orientation = .horizontal then item.height else item.width) 1 =
      item.thickness := by
    rw [hcur]
    exact max_eq_left hTh
  cases o <;> simp [setLineOrientation, hcur, hmax, hTh]

/-- C4 counterexample: on a reachable degenerate line (`height = 0`,
`thickness = 5`, horizontal), switching to vertical neither carries the
thickness over clamped (`max 5 1 = 5`, the code stores 1) nor forces the
non-active width equal to the stored thickness (width stays 0). -/
theorem setLineOrientation_claim_false :
    ¬ ((setLineOrientation badLine .vertical).thickness = max badLine.thickness 1 ∧
       (setLineOrientation badLine .vertical).width =
         (setLineOrientation badLine .vertical).thickness) := by
  decide

/-- C4 witness: orientation switch on a well-formed default line. -/
theorem setLineOrientation_spec_witness :
    (lineInvariant (defaultLineItem "line-1") ∧
     1 ≤ (defaultLineItem "line-1").thickness) ∧
    ((setLineOrientation (defaultLineItem "line-1") .vertical).orientation =
       .vertical ∧
     (setLineOrientation (defaultLineItem "line-1") .vertical).height = 160 ∧
     (setLineOrientation (defaultLineItem "line-1") .vertical).thickness = 2 ∧
     (setLineOrientation (defaultLineItem "line-1") .vertical).width =
       (setLineOrientation (defaultLineItem "line-1") .vertical).thickness) := by
  have hs := setLineOrientation_spec (defaultLineItem "line-1") .vertical
    (by decide) (by decide)
  exact ⟨⟨by decide, by decide⟩,
    hs.1, by simpa using hs.2.2.1 rfl, by simpa using hs.2.2.2.1,
    hs.2.2.2.2.2 rfl⟩

/-- C6: `evaluateCondition` yields `none` exactly when the condition is
disabled or its column is unset; otherwise it yields `trueText` exactly when
the operator's predicate (equality, inequality, or substring containment of
the compare value in the source text) holds, else `falseText`. -/
theorem evaluateCondition_spec (c : ConditionSetting) :
    (evaluateCondition c = none ↔ (c.enabled = false ∨ c.column = "")) ∧
    (c.enabled = true → c.column ≠ "" →
      ((c.operator = .equals →
         evaluateCondition c =
           some (if dbText c.column = c.value then c.trueText else c.falseText)) ∧
       (c.operator = .notEquals →
         evaluateCondition c =
           some (if dbText c.column ≠ c.value then c.trueText else c.falseText)) ∧
       (c.operator = .contains →
         evaluateCondition c =
           some (if List.IsInfix c.value.data (dbText c.column).data
                 then c.trueText else c.falseText)))) := by
  constructor
  · rw [evaluateCondition]
    split
    · next h => simp [h]
    · next h => simp [h]
  · intro hen hcol
    refine ⟨?_, ?_, ?_⟩ <;> intro hop
    · simp [evaluateCondition, hen, hcol, hop, beq_iff_eq]
    · simp [evaluateCondition, hen, hcol, hop, bne_iff_ne]
    · simp [evaluateCondition, hen, hcol, hop, includesChars_iff]

/-- C6 witness: the 性別 equals 男性 condition evaluates through the
equals branch. -/
theorem evaluateCondition_spec_witness :
    (sampleCondition.enabled = true ∧ sampleCondition.column ≠ "" ∧
     sampleCondition.operator = .equals) ∧
    evaluateCondition sampleCondition =
      some (if dbText sampleCondition.column = sampleCondition.value
            then sampleCondition.trueText else sampleCondition.falseText) :=
  ⟨⟨rfl, by decide, rfl⟩,
   ((evaluateCondition_spec sampleCondition).2 rfl (by decide)).1 rfl⟩

/-- An empty or absent resolved value renders the fallback text. -/
theorem renderRawValue_empty (item : DataItem) (value : Option DbValue)
    (h : isEmptyValue value = true) :
    renderRawValue item value = item.emptyFallback := by
  simp [renderRawValue, h]

/-- A present non-empty resolved value renders prefix, value text, suffix. -/
theorem renderRawValue_present (item : DataItem) (v : DbValue)
    (h : v ≠ DbValue.str "") :
    renderRawValue item (some v) = item.prefixText ++ textOf v ++ item.suffixText := by
  have hev : isEmptyValue (some v) = false := by
    cases v with
    | str s =>
      have hs : s ≠ "" := fun hs => h (by rw [hs])
      simp [isEmptyValue, hs]
    | num n => rfl
  simp [renderRawValue, hev]

/-- C2: `renderPreviewText` returns a present non-empty condition result
regardless of the bound column, prefix and suffix; an empty condition result
falls through; on the fallthrough path an unset column or absent/empty value
yields `emptyFallback` (in particular `"N/A"` when so configured with no
enabled condition), and a present non-empty value yields
prefix ++ value text ++ suffix. -/
theorem renderPreviewText_spec (item : DataItem) :
    (∀ s, evaluateCondition item.condition = some s → s ≠ "" →
      renderPreviewText item = s) ∧
    ((evaluateCondition item.condition = none ∨
      evaluateCondition item.condition = some "") →
      ((item.column = "" ∨ DB_SAMPLE item.column = none ∨
          DB_SAMPLE item.column = some (DbValue.str "")) →
        renderPreviewText item = item.emptyFallback) ∧
      (∀ v, item.column ≠ "" → DB_SAMPLE item.column = some v →
        v ≠ DbValue.str "" →
        renderPreviewText item = item.prefixText ++ textOf v ++ item.suffixText)) ∧
    (item.column = "" → item.condition.enabled = false → item.emptyFallback = "N/A" →
      renderPreviewText item = "N/A") := by
  refine ⟨?_, ?_, ?_⟩
  · intro s hs hsne
    simp [renderPreviewText, hs, hsne]
  · intro hcond
    constructor
    · intro hval
      have hev : isEmptyValue
          (if item.column = "" then none else DB_SAMPLE item.column) = true := by
        rcases hval with h | h | h
        · simp [h, isEmptyValue]
        · by_cases hc : item.column = "" <;> simp [hc, h, isEmptyValue]
        · by_cases hc : item.column = "" <;> simp [hc, h, isEmptyValue]
      rcases hcond with hc | hc <;>
        simp [renderPreviewText, hc, renderRawValue_empty item _ hev]
    · intro v hc hv hvne
      have hsome : (if item.column = "" then none else DB_SAMPLE item.column) =
          some v := by
        simp [hc, hv]
      rcases hcond with hcnd | hcnd <;>
        simp [renderPreviewText, hcnd, hsome, renderRawValue_present item v hvne]
  · intro hc hen hfb
    have hnone : evaluateCondition item.condition = none := by
      simp [evaluateCondition, hen]
    rw [← hfb]
    simp [renderPreviewText, hnone, hc, renderRawValue_empty, isEmptyValue]

/-- C2 witness: with no bound column, no enabled condition and fallback
`"N/A"`, the preview text is `"N/A"`. -/
theorem renderPreviewText_spec_witness :
    (sampleDataItem.column = "" ∧ sampleDataItem.condition.enabled = false ∧
     sampleDataItem.emptyFallback = "N/A") ∧
    renderPreviewText sampleDataItem = "N/A" :=
  ⟨⟨rfl, rfl, rfl⟩, (renderPreviewText_spec sampleDataItem).2.2 rfl rfl rfl⟩

/-- C7: deleting an item removes every item carrying that id while keeping
the remaining items in order, clears the selection exactly when it pointed at
that id, and a subsequent select of the deleted id changes no items and
resolves to no selection. -/
theorem handleDelete_spec (doc : DocumentState) (id : String) :
    (∀ item ∈ (handleDelete doc id).items, item.id ≠ id) ∧
    List.Sublist (handleDelete doc id).items doc.items ∧
    (∀ item ∈ doc.items, item.id ≠ id → item ∈ (handleDelete doc id).items) ∧
    (doc.selectedId = some id → (handleDelete doc id).selectedId = none) ∧
    (doc.selectedId ≠ some id → (handleDelete doc id).selectedId = doc.selectedId) ∧
    (select (handleDelete doc id) (some id)).items = (handleDelete doc id).items ∧
    selectedItem (select (handleDelete doc id) (some id)) = none := by
  refine ⟨?_, ?_, ?_, ?_, ?_, rfl, ?_⟩
  · intro item hmem
    have := (List.mem_filter.mp hmem).2
    simpa [bne_iff_ne] using this
  · exact List.filter_sublist doc.items
  · intro item hmem hne
    exact List.mem_filter.mpr ⟨hmem, by simpa [bne_iff_ne] using hne⟩
  · intro h
    simp [handleDelete, h]
  · intro h
    simp [handleDelete, h]
  · rw [selectedItem]
    simp only [select]
    rw [List.find?_eq_none]
    intro item hmem
    have := (List.mem_filter.mp hmem).2
    simpa [bne_iff_ne, beq_iff_eq] using this

/-- C7 witness: deleting the selected first item of a two-item document. -/
theorem handleDelete_spec_witness :
    sampleDoc.selectedId = some "line-a" ∧
    (handleDelete sampleDoc "line-a").selectedId = none ∧
    selectedItem (select (handleDelete sampleDoc "line-a") (some "line-a")) = none :=
  ⟨rfl, (handleDelete_spec sampleDoc "line-a").2.2.2.1 rfl,
   (handleDelete_spec sampleDoc "line-a").2.2.2.2.2.2⟩

/-- C8: `handleItemUpdate` keeps the selection, the item count and the item
order, merges the payload into exactly the items whose id matches, leaves all
other items unchanged in place, and is a silent no-op when no item carries
the id. -/
theorem handleItemUpdate_spec (doc : DocumentState) (id : String)
    (merge : CanvasItem → CanvasItem) :
    (handleItemUpdate doc id merge).selectedId = doc.selectedId ∧
    (handleItemUpdate doc id merge).items.length = doc.items.length ∧
    (∀ (i : Nat) (item : CanvasItem), doc.items[i]? = some item → item.id ≠ id →
      (handleItemUpdate doc id merge).items[i]? = some item) ∧
    (∀ (i : Nat) (item : CanvasItem), doc.items[i]? = some item → item.id = id →
      (handleItemUpdate doc id merge).items[i]? = some (merge item)) ∧
    ((∀ item ∈ doc.items, item.id ≠ id) → handleItemUpdate doc id merge = doc) := by
  refine ⟨rfl, by simp [handleItemUpdate], ?_, ?_, ?_⟩
  · intro i item hi hne
    simp [handleItemUpdate, List.getElem?_map, hi, hne, beq_iff_eq]
  · intro i item hi heq
    simp [handleItemUpdate, List.getElem?_map, hi, heq, beq_iff_eq]
  · intro h
    have key : doc.items.map
        (fun item => if item.id == id then merge item else item) = doc.items := by
      conv_rhs => rw [← List.map_id doc.items]
      apply List.map_congr_left
      intro a ha
      have hne : (a.id == id) = false := by
        simpa [beq_eq_false_iff_ne] using h a ha
      simp [hne]
    show { doc with items := _ } = doc
    rw [key]

/-- C8 witness: updating a nonexistent id leaves the document unchanged. -/
theorem handleItemUpdate_spec_witness :
    (∀ item ∈ sampleDoc.items, item.id ≠ "missing") ∧
    handleItemUpdate sampleDoc "missing" sampleMerge = sampleDoc :=
  ⟨by decide,
   (handleItemUpdate_spec sampleDoc "missing" sampleMerge).2.2.2.2 (by decide)⟩

/-- C9: a paper-size change commits the new size in the synchronous phase
with the items and selection still untouched, the deferred reset runs
strictly afterwards (the committed sequence is exactly the synchronous phase
followed by the reset phase), and the final state has no items, no selection
and the new size in effect. -/
theorem paperSizeChange_spec (s : AppState) (next : PaperSizeKey) :
    (runUpdates s (paperChangeSync next)).paperSize = some next ∧
    (runUpdates s (paperChangeSync next)).items = s.items ∧
    (runUpdates s (paperChangeSync next)).selectedId = s.selectedId ∧
    runUpdates s (paperChangeCommitted next) =
      runUpdates (runUpdates s (paperChangeSync next)) paperChangeDeferred ∧
    (runUpdates s (paperChangeCommitted next)).items = [] ∧
    (runUpdates s (paperChangeCommitted next)).selectedId = none ∧
    (runUpdates s (paperChangeCommitted next)).paperSize = some next := by
  refine ⟨rfl, rfl, rfl, ?_, rfl, rfl, rfl⟩
  simp [runUpdates, paperChangeCommitted, List.foldl_append]
